import Mathlib

/-!
Shallow embedding of the femme logging backend (src/lib.rs and src/x86.rs):
level and filter enums of the log facade, the Femme builder with its
per-module override table, the effective-threshold lookup, the max-level
computation performed by finish, and the two renderers (pretty and ndjson).
Machine integers do not occur; strings are modelled as Lean strings and the
stdout writes of each renderer are modelled as the string they would emit.
-/

namespace FemmeLog

/-- Severity levels of the log facade, in the facade's declaration order
(numeric representation: Error = 1 .. Trace = 5). -/
inductive Level where
  | Error
  | Warn
  | Info
  | Debug
  | Trace
deriving DecidableEq

/-- Level filters of the log facade (numeric representation: Off = 0 .. Trace = 5). -/
inductive LevelFilter where
  | Off
  | Error
  | Warn
  | Info
  | Debug
  | Trace
deriving DecidableEq

/-- Numeric value of a Level, as in the facade's usize representation. -/
def levelNum : Level → Nat
  | .Error => 1
  | .Warn => 2
  | .Info => 3
  | .Debug => 4
  | .Trace => 5

/-- Numeric value of a LevelFilter, as in the facade's usize representation. -/
def filterNum : LevelFilter → Nat
  | .Off => 0
  | .Error => 1
  | .Warn => 2
  | .Info => 3
  | .Debug => 4
  | .Trace => 5

/-- The comparison Level <= LevelFilter used by the facade: numeric comparison. -/
def levelLeFilter (lv : Level) (f : LevelFilter) : Bool :=
  decide (levelNum lv ≤ filterNum f)

/-- std::cmp::max on LevelFilter (Ord derived from declaration order). -/
def maxFilter (a b : LevelFilter) : LevelFilter :=
  if filterNum a < filterNum b then b else a

/-- Iterator::max over the values of the override table (None when empty). -/
def valuesMax : List LevelFilter → Option LevelFilter
  | [] => none
  | v :: rest =>
    match valuesMax rest with
    | none => some v
    | some m => some (maxFilter v m)

/-- HashMap::get on the override table, modelled as assoc-list lookup
(keys are unique by construction of upsert). -/
def lookupTarget : List (String × LevelFilter) → String → Option LevelFilter
  | [], _ => none
  | (k', l') :: rest, k => if k' = k then some l' else lookupTarget rest k

/-- The entry(..).and_modify(..).or_insert(..) update of level_for:
replace the stored level when the key is present, insert otherwise. -/
def upsert : List (String × LevelFilter) → String → LevelFilter → List (String × LevelFilter)
  | [], k, l => [(k, l)]
  | (k', l') :: rest, k, l =>
    if k' = k then (k, l) :: rest else (k', l') :: upsert rest k l

/-- The logger variants available on non-wasm targets. -/
inductive Logger where
  | Pretty
  | NDJson
deriving DecidableEq

/-- A log record as consumed by this backend: severity, target string,
optional module path, the formatted message (record.args()), and the
ordered key/value pairs with values already in display form. -/
structure Record where
  level : Level
  target : String
  module_path : Option String
  args : String
  kvs : List (String × String)
deriving DecidableEq

/-- Record metadata as used by Log::enabled. -/
structure Metadata where
  level : Level
  target : String
deriving DecidableEq

/-- The Femme builder / logger: logger kind, default level, per-module overrides. -/
structure Femme where
  logger : Logger
  level : LevelFilter
  targets : List (String × LevelFilter)
deriving DecidableEq

/-- Default Femme configuration: pretty logger, Info level, empty table. -/
def Femme.default : Femme :=
  { logger := .Pretty, level := .Info, targets := [] }

/-- Femme::logger builder method. -/
def Femme.setLogger (self : Femme) (lg : Logger) : Femme :=
  { self with logger := lg }

/-- Femme::level builder method. -/
def Femme.setLevel (self : Femme) (l : LevelFilter) : Femme :=
  { self with level := l }

/-- Femme::level_for builder method: upsert an override for a module. -/
def level_for (self : Femme) (module : String) (l : LevelFilter) : Femme :=
  { self with targets := upsert self.targets module l }

/-- First fragment of Rust's str::split(sep).nth(0) for sep = two colons,
on the character list: characters up to the first occurrence of two
consecutive colons (the whole list when no separator occurs). -/
def firstSegAux : List Char → List Char
  | [] => []
  | [c] => [c]
  | c :: c' :: rest =>
    if c = ':' ∧ c' = ':' then [] else c :: firstSegAux (c' :: rest)

/-- module.split(sep).nth(0).unwrap for sep = two colons: the first segment. -/
def firstSegment (s : String) : String :=
  String.mk (firstSegAux s.data)

/-- Whether a character list contains two consecutive colons, i.e. the
namespace separator, as a substring. -/
def hasSep : List Char → Bool
  | [] => false
  | [_] => false
  | c :: c' :: rest => if c = ':' ∧ c' = ':' then true else hasSep (c' :: rest)

/-- Femme::module_level: look up the first segment of the record's module
path in the override table, falling back to the default level when the
module path is absent or has no override. -/
def module_level (self : Femme) (r : Record) : LevelFilter :=
  match r.module_path with
  | none => self.level
  | some m =>
    match lookupTarget self.targets (firstSegment m) with
    | some l => l
    | none => self.level

/-- The max log level computed inside Femme::finish:
max(self.level, self.targets.values().max().unwrap_or(Off)). -/
def max_level (self : Femme) : LevelFilter :=
  maxFilter self.level ((valuesMax (self.targets.map Prod.snd)).getD .Off)

/-- The process-wide global state of the log facade: the installed boxed
logger, if any, and the published max level. -/
structure LogGlobalState where
  logger : Option Femme
  maxLevel : LevelFilter
deriving DecidableEq

/-- Modelled from the spec: the facade's registration point, an append-once
operation on process-wide global state — installing fails with a setup
error when a logger is already installed, and installs otherwise (the
log crate's set_boxed_logger, external to this repository). -/
def set_boxed_logger (f : Femme) (s : LogGlobalState) : Except Unit LogGlobalState :=
  if s.logger.isSome then .error () else .ok { s with logger := some f }

/-- Modelled from the spec: the facade's publication of the global maximum
level (the log crate's set_max_level, external to this repository). -/
def set_max_level (lf : LevelFilter) (s : LogGlobalState) : LogGlobalState :=
  { s with maxLevel := lf }

/-- Femme::finish: compute the max level, install the logger via the
facade (propagating its setup error, in which case the state is left
untouched and the max level is not published), then publish the max level. -/
def finish (self : Femme) (s : LogGlobalState) : Except Unit Unit × LogGlobalState :=
  let maxLv := max_level self
  match set_boxed_logger self s with
  | .error e => (.error e, s)
  | .ok s' => (.ok (), set_max_level maxLv s')

/-- Log::enabled for Femme: metadata.level() <= log::max_level(), a pure
read of the published global max level. -/
def enabled (_self : Femme) (s : LogGlobalState) (m : Metadata) : Bool :=
  levelLeFilter m.level s.maxLevel

/-- Log::enabled in state-passing form: the body only reads the global
state, so the call returns its boolean and the state it was given. -/
def enabledST (self : Femme) (s : LogGlobalState) (m : Metadata) : Bool × LogGlobalState :=
  (enabled self s m, s)

/-- ANSI reset code. -/
def RESET : String := "\x1b[0m"

/-- ANSI bold code. -/
def BOLD : String := "\x1b[1m"

/-- ANSI red code. -/
def RED : String := "\x1b[31m"

/-- ANSI green code. -/
def GREEN : String := "\x1b[32m"

/-- ANSI yellow code. -/
def YELLOW : String := "\x1b[33m"

/-- format_kv_pairs: the kv::Visitor writes, for each key/value pair in
order, a newline, four spaces, the key wrapped in bold and reset, a space,
and the value's display form. -/
def format_kv_pairs (r : Record) : String :=
  String.join (r.kvs.map fun kv => "\n    " ++ BOLD ++ kv.1 ++ RESET ++ " " ++ kv.2)

/-- write_pretty: the target wrapped in a severity color plus bold and a
reset, a space, the message, the key/value pairs, and a final newline. -/
def write_pretty (r : Record) : String :=
  (match r.level with
   | .Trace | .Debug | .Info => GREEN ++ BOLD ++ r.target ++ RESET
   | .Warn => YELLOW ++ BOLD ++ r.target ++ RESET
   | .Error => RED ++ BOLD ++ r.target ++ RESET)
  ++ " " ++ r.args ++ format_kv_pairs r ++ "\n"

/-- get_level: the numeric severity codes of the ndjson output. -/
def get_level : Level → Nat
  | .Trace => 10
  | .Debug => 20
  | .Info => 30
  | .Warn => 40
  | .Error => 50

/-- UNIX_EPOCH.elapsed().as_millis(): the wall clock is modelled as its
signed offset clk from the Unix epoch in milliseconds; elapsed() fails
exactly when the clock reads earlier than the epoch. -/
def unixElapsedMillis (clk : Int) : Except Unit Nat :=
  if 0 ≤ clk then .ok clk.toNat else .error ()

/-- The single line written by write_ndjson on the success path, for a
given millisecond timestamp: brace, level code, time, quoted message,
the key/value pairs as written by format_kv_pairs, closing brace, newline. -/
def ndjsonLine (ms : Nat) (r : Record) : String :=
  "\x7b" ++ "\"level\":" ++ toString (get_level r.level) ++ ",\"time\":" ++ toString ms
  ++ ",\"msg\":\"" ++ r.args ++ "\"" ++ format_kv_pairs r ++ "\x7d\n"

/-- write_ndjson: sample the clock (the unwrap on a pre-epoch clock is a
panic, modelled as the error branch), then write the single entry. -/
def write_ndjson (clk : Int) (r : Record) : Except Unit String :=
  match unixElapsedMillis clk with
  | .error e => .error e
  | .ok ms => .ok (ndjsonLine ms r)

/-- Log::log for Femme: compute the module level, and when the record's
level passes it, render with the configured logger (ok none models the
silent drop; the error models the renderer's panic on a pre-epoch clock). -/
def femme_log (self : Femme) (clk : Int) (r : Record) : Except Unit (Option String) :=
  if levelLeFilter r.level (module_level self r) then
    match self.logger with
    | .Pretty => .ok (some (write_pretty r))
    | .NDJson =>
      match write_ndjson clk r with
      | .error e => .error e
      | .ok s => .ok (some s)
  else .ok none

/-- The cutoff level of a filter: the least severe level it admits, none
for Off (which admits nothing). -/
def filterCutoff : LevelFilter → Option Level
  | .Off => none
  | .Error => some .Error
  | .Warn => some .Warn
  | .Info => some .Info
  | .Debug => some .Debug
  | .Trace => some .Trace

/-- Severity rank of a level: Trace least severe, Error most severe. -/
def sevRank : Level → Nat
  | .Trace => 1
  | .Debug => 2
  | .Info => 3
  | .Warn => 4
  | .Error => 5

/-- The spec's filtering relation: a level is at least as severe as a
threshold when the threshold admits some cutoff level and the level's
severity rank is at least the cutoff's. -/
def atLeastAsSevereB (lv : Level) (f : LevelFilter) : Bool :=
  match filterCutoff f with
  | none => false
  | some c => decide (sevRank c ≤ sevRank lv)

/-- Modelled from the claim's words: the effective threshold computed from
the record's target — the first segment of the target is the lookup key,
its override if stored, the default otherwise. -/
def effectiveThresholdOfTarget (self : Femme) (r : Record) : LevelFilter :=
  (lookupTarget self.targets (firstSegment r.target)).getD self.level

/-- Modelled from the claim's words: the severity color of the Human
renderer — green for Trace, Debug and Info, yellow for Warn, red for Error. -/
def claimColor : Level → String
  | .Trace | .Debug | .Info => GREEN
  | .Warn => YELLOW
  | .Error => RED

/-- Modelled from the claim's words: the Human renderer's whole output —
colorized bold target and reset, space, message, then per pair a line
break, four spaces, bold key and reset, space, value, and a final newline. -/
def prettyClaimOutput (r : Record) : String :=
  claimColor r.level ++ BOLD ++ r.target ++ RESET ++ " " ++ r.args
  ++ String.join (r.kvs.map fun kv => "\n    " ++ BOLD ++ kv.1 ++ RESET ++ " " ++ kv.2) ++ "\n"

/-- Modelled from the claim's words: the Machine renderer's claimed line —
brace, level code, time, quoted message, then each pair as a comma, the
quoted key, a colon and the raw value, closing brace and newline. -/
def ndjsonClaimLine (ms : Nat) (r : Record) : String :=
  "\x7b" ++ "\"level\":" ++ toString (get_level r.level) ++ ",\"time\":" ++ toString ms
  ++ ",\"msg\":\"" ++ r.args ++ "\""
  ++ String.join (r.kvs.map fun kv => ",\"" ++ kv.1 ++ "\":" ++ kv.2) ++ "\x7d\n"

/-- Helper: the spec severity relation coincides with the numeric comparison
used by the code. -/
lemma atLeastAsSevereB_iff (lv : Level) (f : LevelFilter) :
    atLeastAsSevereB lv f = true ↔ levelNum lv ≤ filterNum f := by
  cases lv <;> cases f <;> decide

/-- Helper: write_ndjson succeeds on an at-or-after-epoch clock. -/
lemma write_ndjson_ok_of_nonneg (clk : Int) (r : Record) (h : 0 ≤ clk) :
    write_ndjson clk r = .ok (ndjsonLine clk.toNat r) := by
  simp [write_ndjson, unixElapsedMillis, h]

/-- Helper: the first segment of a nonempty list is empty or keeps the head. -/
lemma firstSegAux_nil_or_head (c : Char) (l : List Char) :
    firstSegAux (c :: l) = [] ∨ ∃ t, firstSegAux (c :: l) = c :: t := by
  cases l with
  | nil => right; exact ⟨[], rfl⟩
  | cons c' rest =>
    by_cases h : c = ':' ∧ c' = ':'
    · left; simp [firstSegAux, h]
    · right; exact ⟨firstSegAux (c' :: rest), by simp [firstSegAux, h]⟩

/-- Helper: the first segment never contains the namespace separator. -/
lemma hasSep_firstSegAux (l : List Char) : hasSep (firstSegAux l) = false := by
  induction l with
  | nil => rfl
  | cons c rest ih =>
    cases rest with
    | nil => rfl
    | cons c' rest' =>
      by_cases h : c = ':' ∧ c' = ':'
      · simp [firstSegAux, h, hasSep]
      · have hfs : firstSegAux (c :: c' :: rest') = c :: firstSegAux (c' :: rest') := by
          simp [firstSegAux, h]
        rw [hfs]
        rcases firstSegAux_nil_or_head c' rest' with h0 | ⟨t, ht⟩
        · rw [h0]; rfl
        · rw [ht]
          have hstep : hasSep (c :: c' :: t) =
              if c = ':' ∧ c' = ':' then true else hasSep (c' :: t) := rfl
          rw [hstep, if_neg h, ← ht]
          exact ih

/-- Helper: a key containing the separator is never a first segment. -/
lemma firstSegment_ne_sep_key (p k : String) (hk : hasSep k.data = true) :
    firstSegment p ≠ k := by
  intro he
  have h2 : hasSep (firstSegment p).data = true := by rw [he]; exact hk
  have h3 : (firstSegment p).data = firstSegAux p.data := rfl
  rw [h3, hasSep_firstSegAux] at h2
  exact Bool.false_ne_true h2

/-- Helper: lookup in the table after an upsert. -/
lemma lookupTarget_upsert (ts : List (String × LevelFilter)) (k key : String)
    (l : LevelFilter) :
    lookupTarget (upsert ts k l) key =
      if k = key then some l else lookupTarget ts key := by
  induction ts with
  | nil => simp [upsert, lookupTarget]
  | cons hd rest ih =>
    rcases hd with ⟨k', l'⟩
    by_cases h : k' = k
    · subst h
      by_cases hk : k' = key <;> simp [upsert, lookupTarget, hk]
    · by_cases hk : k' = key
      · subst hk
        have hne : ¬ k = k' := fun hx => h hx.symm
        simp [upsert, lookupTarget, h, hne]
      · simp [upsert, lookupTarget, h, hk, ih]

/-- Helper: maxFilter computes the numeric maximum. -/
lemma maxFilter_num (a b : LevelFilter) :
    filterNum (maxFilter a b) = max (filterNum a) (filterNum b) := by
  unfold maxFilter; split <;> omega

/-- Helper: maxFilter returns one of its arguments. -/
lemma maxFilter_cases (a b : LevelFilter) : maxFilter a b = a ∨ maxFilter a b = b := by
  unfold maxFilter; split
  · right; rfl
  · left; rfl

/-- Helper: maxFilter with Off is the identity. -/
lemma maxFilter_off (a : LevelFilter) : maxFilter a .Off = a := by
  unfold maxFilter
  rw [if_neg]
  exact Nat.not_lt_zero _

/-- Helper: the iterator maximum bounds every element of the list. -/
lemma valuesMax_ub (vs : List LevelFilter) (v : LevelFilter) (hv : v ∈ vs) :
    filterNum v ≤ filterNum ((valuesMax vs).getD .Off) := by
  induction vs with
  | nil => cases hv
  | cons w rest ih =>
    rcases List.mem_cons.mp hv with h | h
    · subst h
      cases hrest : valuesMax rest with
      | none => simp [valuesMax, hrest]
      | some m =>
        simp only [valuesMax, hrest, Option.getD_some]
        rw [maxFilter_num]; omega
    · have hle := ih h
      cases hrest : valuesMax rest with
      | none =>
        rw [hrest] at hle
        simp only [Option.getD_none] at hle
        simp only [valuesMax, hrest, Option.getD_some]
        have h0 : filterNum LevelFilter.Off = 0 := rfl
        rw [h0] at hle
        omega
      | some m =>
        rw [hrest] at hle
        simp only [Option.getD_some] at hle
        simp only [valuesMax, hrest, Option.getD_some]
        rw [maxFilter_num]; omega

/-- Helper: the iterator maximum is attained when the list is nonempty. -/
lemma valuesMax_attained (vs : List LevelFilter) :
    valuesMax vs = none ∨ ∃ m, valuesMax vs = some m ∧ m ∈ vs := by
  induction vs with
  | nil => left; rfl
  | cons w rest ih =>
    right
    rcases ih with h | ⟨m, hm, hmem⟩
    · exact ⟨w, by simp [valuesMax, h], List.mem_cons_self _ _⟩
    · refine ⟨maxFilter w m, by simp [valuesMax, hm], ?_⟩
      rcases maxFilter_cases w m with h | h <;> rw [h]
      · exact List.mem_cons_self _ _
      · exact List.mem_cons_of_mem _ hmem

/-- Helper: upserting a fresh key appends its level to the value list. -/
lemma snd_upsert_fresh (ts : List (String × LevelFilter)) (k : String)
    (l : LevelFilter) (h : lookupTarget ts k = none) :
    (upsert ts k l).map Prod.snd = ts.map Prod.snd ++ [l] := by
  induction ts with
  | nil => rfl
  | cons hd rest ih =>
    rcases hd with ⟨k', l'⟩
    simp only [lookupTarget] at h
    by_cases hk : k' = k
    · rw [if_pos hk] at h; cases h
    · rw [if_neg hk] at h
      simp [upsert, hk, ih h]

/-- C1: with the wall clock at the epoch, the Machine renderer applied to a
record with level Warn, message "disk full" and the single pair
("path", "/tmp") writes the key/value pair through the shared pretty
formatter — a line break, four spaces, and an ANSI-bold key — inside the
entry, instead of the claimed single-line comma-separated form; the entry
differs from the claimed line. -/
theorem ndjson_kv_pairs_use_pretty_format :
    write_ndjson 0 (Record.mk .Warn "app" (some "app") "disk full" [("path", "/tmp")]) =
      .ok "\x7b\"level\":40,\"time\":0,\"msg\":\"disk full\"\n    \x1b[1mpath\x1b[0m /tmp\x7d\n"
    ∧ ndjsonClaimLine 0 (Record.mk .Warn "app" (some "app") "disk full" [("path", "/tmp")]) =
      "\x7b\"level\":40,\"time\":0,\"msg\":\"disk full\",\"path\":/tmp\x7d\n"
    ∧ write_ndjson 0 (Record.mk .Warn "app" (some "app") "disk full" [("path", "/tmp")]) ≠
      .ok (ndjsonClaimLine 0 (Record.mk .Warn "app" (some "app") "disk full" [("path", "/tmp")])) := by
  refine ⟨rfl, rfl, ?_⟩
  intro h
  have h2 : ndjsonLine 0 (Record.mk .Warn "app" (some "app") "disk full" [("path", "/tmp")]) =
      ndjsonClaimLine 0 (Record.mk .Warn "app" (some "app") "disk full" [("path", "/tmp")]) :=
    Except.ok.inj h
  exact absurd h2 (by decide)

/-- C2: for every configuration and record, and a wall clock at or after the
epoch, Log::log emits output exactly when the record level is at least as
severe as the effective threshold computed for the record, and when it is
less severe the call writes nothing and signals no error. -/
theorem log_filters_by_module_level (cfg : Femme) (clk : Int) (r : Record)
    (h : 0 ≤ clk) :
    ((∃ out, femme_log cfg clk r = .ok (some out)) ↔
      atLeastAsSevereB r.level (module_level cfg r) = true)
    ∧ (atLeastAsSevereB r.level (module_level cfg r) = false →
      femme_log cfg clk r = .ok none) := by
  have hb := atLeastAsSevereB_iff r.level (module_level cfg r)
  by_cases hc : levelNum r.level ≤ filterNum (module_level cfg r)
  · have hsev : atLeastAsSevereB r.level (module_level cfg r) = true := hb.mpr hc
    have hcond : levelLeFilter r.level (module_level cfg r) = true := by
      simp [levelLeFilter, hc]
    constructor
    · constructor
      · intro _; exact hsev
      · intro _
        cases hl : cfg.logger with
        | Pretty => exact ⟨write_pretty r, by simp [femme_log, hcond, hl]⟩
        | NDJson =>
          exact ⟨ndjsonLine clk.toNat r,
            by simp [femme_log, hcond, hl, write_ndjson_ok_of_nonneg clk r h]⟩
    · intro hfalse; rw [hsev] at hfalse; cases hfalse
  · have hsev : atLeastAsSevereB r.level (module_level cfg r) = false := by
      cases hx : atLeastAsSevereB r.level (module_level cfg r)
      · rfl
      · exact absurd (hb.mp hx) hc
    have hcond : levelLeFilter r.level (module_level cfg r) = false := by
      simp [levelLeFilter, hc]
    constructor
    · constructor
      · rintro ⟨out, hout⟩
        simp [femme_log, hcond] at hout
      · intro ht; rw [hsev] at ht; cases ht
    · intro _; simp [femme_log, hcond]

/-- Witness for C2 at a concrete configuration, record and clock. -/
theorem log_filters_witness :
    ((0 : Int) ≤ 5)
    ∧ (((∃ out, femme_log (Femme.mk .Pretty .Info []) 5
          (Record.mk .Warn "app" (some "app") "m" []) = .ok (some out)) ↔
        atLeastAsSevereB (Record.mk .Warn "app" (some "app") "m" []).level
          (module_level (Femme.mk .Pretty .Info [])
            (Record.mk .Warn "app" (some "app") "m" [])) = true)
      ∧ (atLeastAsSevereB (Record.mk .Warn "app" (some "app") "m" []).level
          (module_level (Femme.mk .Pretty .Info [])
            (Record.mk .Warn "app" (some "app") "m" [])) = false →
        femme_log (Femme.mk .Pretty .Info []) 5
          (Record.mk .Warn "app" (some "app") "m" []) = .ok none)) :=
  ⟨by decide, log_filters_by_module_level (Femme.mk .Pretty .Info []) 5
    (Record.mk .Warn "app" (some "app") "m" []) (by decide)⟩

/-- C3 counterexample: the code computes the threshold from the module path,
not from the target — with an override stored for "alpha", a record whose
target is "alpha::sub" but whose module path is "beta" gets the default
level Info from the code, while the claimed target-based lookup yields the
override Error. -/
theorem module_level_ignores_target :
    module_level (Femme.mk .Pretty .Info [("alpha", .Error)])
        (Record.mk .Warn "alpha::sub" (some "beta") "m" []) = .Info
    ∧ effectiveThresholdOfTarget (Femme.mk .Pretty .Info [("alpha", .Error)])
        (Record.mk .Warn "alpha::sub" (some "beta") "m" []) = .Error
    ∧ module_level (Femme.mk .Pretty .Info [("alpha", .Error)])
        (Record.mk .Warn "alpha::sub" (some "beta") "m" []) ≠
      effectiveThresholdOfTarget (Femme.mk .Pretty .Info [("alpha", .Error)])
        (Record.mk .Warn "alpha::sub" (some "beta") "m" []) := by
  refine ⟨by decide, by decide, by decide⟩

/-- C3 amended: the effective threshold is computed from the module path —
splitting it on the first occurrence of the separator and looking up only
the first segment, returning its override when stored and the default
otherwise; a record without a module path gets the default, and an override
stored under a deeper-nested name (one containing the separator) is never
consulted. -/
theorem module_level_first_segment (cfg : Femme) (r r' : Record) (p k : String)
    (l l' : LevelFilter) (hp : r.module_path = some p) (hn : r'.module_path = none)
    (hk : hasSep k.data = true) :
    module_level (level_for cfg k l) r = module_level cfg r
    ∧ (lookupTarget cfg.targets (firstSegment p) = some l' → module_level cfg r = l')
    ∧ (lookupTarget cfg.targets (firstSegment p) = none → module_level cfg r = cfg.level)
    ∧ module_level cfg r' = cfg.level := by
  refine ⟨?_, ?_, ?_, ?_⟩
  · have hne : ¬ k = firstSegment p :=
      fun hx => firstSegment_ne_sep_key p k hk hx.symm
    simp only [module_level, hp, level_for]
    rw [lookupTarget_upsert, if_neg hne]
  · intro h; simp [module_level, hp, h]
  · intro h; simp [module_level, hp, h]
  · simp [module_level, hn]

/-- Witness for the amended C3 at concrete configuration, records and keys. -/
theorem module_level_first_segment_witness :
    module_level (level_for (Femme.mk .Pretty .Info [("alpha", .Error)]) "web::auth" .Trace)
        (Record.mk .Warn "x" (some "alpha::sub") "m" []) =
      module_level (Femme.mk .Pretty .Info [("alpha", .Error)])
        (Record.mk .Warn "x" (some "alpha::sub") "m" [])
    ∧ (lookupTarget (Femme.mk .Pretty .Info [("alpha", .Error)]).targets
          (firstSegment "alpha::sub") = some .Error →
        module_level (Femme.mk .Pretty .Info [("alpha", .Error)])
          (Record.mk .Warn "x" (some "alpha::sub") "m" []) = .Error)
    ∧ (lookupTarget (Femme.mk .Pretty .Info [("alpha", .Error)]).targets
          (firstSegment "alpha::sub") = none →
        module_level (Femme.mk .Pretty .Info [("alpha", .Error)])
          (Record.mk .Warn "x" (some "alpha::sub") "m" []) = .Info)
    ∧ module_level (Femme.mk .Pretty .Info [("alpha", .Error)])
        (Record.mk .Warn "x" none "m" []) = .Info :=
  module_level_first_segment (Femme.mk .Pretty .Info [("alpha", .Error)])
    (Record.mk .Warn "x" (some "alpha::sub") "m" [])
    (Record.mk .Warn "x" none "m" []) "alpha::sub" "web::auth" .Trace .Error
    rfl rfl (by decide)

/-- C4: the Human renderer emits the severity color (green for Trace, Debug
and Info, yellow for Warn, red for Error) with bold around the target,
a reset, a space, the message, then per key/value pair a line break, four
spaces, the bold key, a reset, a space and the value, and a final newline;
with no pairs the output is exactly the colorized target, space, message
and newline. -/
theorem write_pretty_matches_claim (r : Record) :
    write_pretty r = prettyClaimOutput r
    ∧ (r.kvs = [] → write_pretty r =
        claimColor r.level ++ BOLD ++ r.target ++ RESET ++ " " ++ r.args ++ "\n") := by
  rcases r with ⟨lv, tgt, mp, args, kvs⟩
  constructor
  · cases lv <;> rfl
  · intro h
    simp only at h
    subst h
    cases lv <;>
      simp [write_pretty, prettyClaimOutput, claimColor, format_kv_pairs,
        String.join, String.append_empty]

/-- Witness for C4 at the Error-level record with no pairs. -/
theorem write_pretty_matches_claim_witness :
    write_pretty (Record.mk .Error "db" none "connection lost" []) =
      prettyClaimOutput (Record.mk .Error "db" none "connection lost" [])
    ∧ write_pretty (Record.mk .Error "db" none "connection lost" []) =
        claimColor .Error ++ BOLD ++ "db" ++ RESET ++ " " ++ "connection lost" ++ "\n" :=
  ⟨(write_pretty_matches_claim (Record.mk .Error "db" none "connection lost" [])).1,
    (write_pretty_matches_claim (Record.mk .Error "db" none "connection lost" [])).2 rfl⟩

/-- C5 counterexample: level_for replaces an existing override, so adding an
override for a module that already has a more permissive one lowers the
published ceiling — replacing the Trace override of "a" by Error drops the
max level from Trace to Error. -/
theorem max_level_lowered_by_replacement :
    filterNum (max_level (level_for (Femme.mk .Pretty .Error [("a", .Trace)]) "a" .Error)) <
      filterNum (max_level (Femme.mk .Pretty .Error [("a", .Trace)])) := by
  decide

/-- C5 amended: for every configuration — the override table may be empty —
the max level computed by finish is an upper bound of the default level and
of every stored override, is attained by one of them, equals the default
when the table is empty, and adding an override for a module with no
existing override can only raise or keep it — replacing an existing
override may lower it, as the counterexample shows. -/
theorem max_level_ceiling (cfg : Femme) (k : String) (l : LevelFilter) :
    filterNum cfg.level ≤ filterNum (max_level cfg)
    ∧ (∀ v ∈ cfg.targets.map Prod.snd, filterNum v ≤ filterNum (max_level cfg))
    ∧ (max_level cfg = cfg.level ∨ max_level cfg ∈ cfg.targets.map Prod.snd)
    ∧ (cfg.targets = [] → max_level cfg = cfg.level)
    ∧ (lookupTarget cfg.targets k = none →
        filterNum (max_level cfg) ≤ filterNum (max_level (level_for cfg k l))) := by
  refine ⟨?_, ?_, ?_, ?_, ?_⟩
  · unfold max_level; rw [maxFilter_num]; omega
  · intro v hv
    unfold max_level
    rw [maxFilter_num]
    have := valuesMax_ub (cfg.targets.map Prod.snd) v hv
    omega
  · unfold max_level
    rcases valuesMax_attained (cfg.targets.map Prod.snd) with h0 | ⟨m, hm, hmem⟩
    · left; rw [h0]; simp only [Option.getD_none]; exact maxFilter_off _
    · rw [hm]; simp only [Option.getD_some]
      rcases maxFilter_cases cfg.level m with h | h
      · left; exact h
      · right; rw [h]; exact hmem
  · intro h; unfold max_level; rw [h]; simp only [List.map_nil]
    simp only [valuesMax, Option.getD_none]
    exact maxFilter_off _
  · intro hfresh
    unfold max_level level_for
    simp only
    rw [snd_upsert_fresh cfg.targets k l hfresh]
    rw [maxFilter_num, maxFilter_num]
    have hmono : filterNum ((valuesMax (cfg.targets.map Prod.snd)).getD .Off) ≤
        filterNum ((valuesMax (cfg.targets.map Prod.snd ++ [l])).getD .Off) := by
      rcases valuesMax_attained (cfg.targets.map Prod.snd) with h0 | ⟨m, hm, hmem⟩
      · rw [h0]
        simp only [Option.getD_none]
        have h1 : filterNum LevelFilter.Off = 0 := rfl
        rw [h1]; omega
      · rw [hm]; simp only [Option.getD_some]
        exact valuesMax_ub _ m (List.mem_append_left _ hmem)
    omega

/-- Witness for the amended C5: at a configuration with one override and a
fresh key, each conjunct is discharged at a concrete input, and at the
default configuration the empty-table clause gives the default level. -/
theorem max_level_ceiling_witness :
    (filterNum (Femme.mk .Pretty .Info [("a", .Warn)]).level ≤
        filterNum (max_level (Femme.mk .Pretty .Info [("a", .Warn)]))
      ∧ filterNum LevelFilter.Warn ≤ filterNum (max_level (Femme.mk .Pretty .Info [("a", .Warn)]))
      ∧ (max_level (Femme.mk .Pretty .Info [("a", .Warn)]) =
            (Femme.mk .Pretty .Info [("a", .Warn)]).level
        ∨ max_level (Femme.mk .Pretty .Info [("a", .Warn)]) ∈
            (Femme.mk .Pretty .Info [("a", .Warn)]).targets.map Prod.snd)
      ∧ filterNum (max_level (Femme.mk .Pretty .Info [("a", .Warn)])) ≤
          filterNum (max_level (level_for (Femme.mk .Pretty .Info [("a", .Warn)]) "b" .Debug)))
    ∧ max_level Femme.default = Femme.default.level :=
  ⟨⟨(max_level_ceiling (Femme.mk .Pretty .Info [("a", .Warn)]) "b" .Debug).1,
    (max_level_ceiling (Femme.mk .Pretty .Info [("a", .Warn)]) "b" .Debug).2.1 .Warn (by decide),
    (max_level_ceiling (Femme.mk .Pretty .Info [("a", .Warn)]) "b" .Debug).2.2.1,
    (max_level_ceiling (Femme.mk .Pretty .Info [("a", .Warn)]) "b" .Debug).2.2.2.2 (by decide)⟩,
    (max_level_ceiling Femme.default "b" .Debug).2.2.2.1 rfl⟩

/-- C6: the Machine renderer level codes are exactly Trace 10, Debug 20,
Info 30, Warn 40 and Error 50. -/
theorem get_level_codes :
    get_level .Trace = 10 ∧ get_level .Debug = 20 ∧ get_level .Info = 30
    ∧ get_level .Warn = 40 ∧ get_level .Error = 50 := by
  decide

/-- C7: Log::enabled returns true exactly when the metadata level is at
least as severe as the published process-wide max level. -/
theorem enabled_iff_global_ceiling (fm : Femme) (s : LogGlobalState) (m : Metadata) :
    enabled fm s m = true ↔ atLeastAsSevereB m.level s.maxLevel = true := by
  rcases m with ⟨lv, tgt⟩
  rcases s with ⟨lg, mx⟩
  cases lv <;> cases mx <;> simp [enabled, levelLeFilter, atLeastAsSevereB,
    filterCutoff, sevRank, levelNum, filterNum]

/-- C8: finish on a state that already holds an installed logger returns the
setup error and leaves the global state — installed logger and published
max level — exactly as it was. -/
theorem finish_rejects_second_install (first other : Femme) (s : LogGlobalState)
    (h : s.logger = some first) : finish other s = (.error (), s) := by
  simp [finish, set_boxed_logger, h]

/-- Witness for C8 at a concrete installed logger and second configuration. -/
theorem finish_rejects_second_install_witness :
    (LogGlobalState.mk (some (Femme.mk .Pretty .Info [])) .Info).logger =
      some (Femme.mk .Pretty .Info [])
    ∧ finish (Femme.mk .NDJson .Trace []) (LogGlobalState.mk (some (Femme.mk .Pretty .Info [])) .Info) =
      (.error (), LogGlobalState.mk (some (Femme.mk .Pretty .Info [])) .Info) :=
  ⟨rfl, finish_rejects_second_install (Femme.mk .Pretty .Info []) (Femme.mk .NDJson .Trace [])
    (LogGlobalState.mk (some (Femme.mk .Pretty .Info [])) .Info) rfl⟩

/-- C9: Log::enabled leaves the global state unchanged, and a second call on
the state returned by the first yields the same boolean. -/
theorem enabled_is_pure (fm : Femme) (s : LogGlobalState) (m : Metadata) :
    (enabledST fm s m).2 = s
    ∧ (enabledST fm s m).1 = (enabledST fm (enabledST fm s m).2 m).1 :=
  ⟨rfl, rfl⟩

/-- C10: the Machine renderer panics exactly on a pre-epoch wall clock; at
or after the epoch it writes the entry with the non-negative millisecond
count of the clock as the time field and the error branch is unreachable. -/
theorem ndjson_clock_panic (clk : Int) (r : Record) :
    (clk < 0 → write_ndjson clk r = .error ())
    ∧ (0 ≤ clk → write_ndjson clk r = .ok (ndjsonLine clk.toNat r) ∧ (clk.toNat : Int) = clk) := by
  constructor
  · intro h
    simp [write_ndjson, unixElapsedMillis, Int.not_le.mpr h]
  · intro h
    refine ⟨by simp [write_ndjson, unixElapsedMillis, h], Int.toNat_of_nonneg h⟩

/-- Witness for C10 at a pre-epoch and an at-or-after-epoch clock. -/
theorem ndjson_clock_panic_witness :
    ((-3 : Int) < 0 ∧ write_ndjson (-3) (Record.mk .Info "app" (some "app") "m" []) = .error ())
    ∧ ((0 : Int) ≤ 7
      ∧ write_ndjson 7 (Record.mk .Info "app" (some "app") "m" []) =
          .ok (ndjsonLine (Int.toNat 7) (Record.mk .Info "app" (some "app") "m" []))
      ∧ ((Int.toNat 7 : Int) = 7)) :=
  ⟨⟨by decide, (ndjson_clock_panic (-3) (Record.mk .Info "app" (some "app") "m" [])).1 (by decide)⟩,
    ⟨by decide, (ndjson_clock_panic 7 (Record.mk .Info "app" (some "app") "m" [])).2 (by decide)⟩⟩

end FemmeLog
